import Mathlib

/-!
Shallow embedding of the school-data scraper (`tx_schools_scraper.py`) and
proofs about its specification claims.

Python strings are modelled as `List Char` (`PyS`); the Python `str` methods
used by the source (`strip`, `isdigit`, `isalpha`, `upper`, `split`,
`replace`, `startswith`, substring membership) are modelled on the ASCII
fragment actually exercised by the program.  Fallible operations are
modelled with `Except`, and the browser-bound collaborators (Selenium
waits, clicks and navigation) appear only through their observable
results, passed as explicit function parameters.
-/

/-- Character-sequence model of a Python `str`. -/
abbrev PyS := List Char

/-- Model of Python `str.strip()`: drop leading and trailing whitespace. -/
def pyStrip (s : PyS) : PyS :=
  ((s.dropWhile Char.isWhitespace).reverse.dropWhile Char.isWhitespace).reverse

/-- Model of Python `str.isdigit()`: non-empty and every character a digit. -/
def pyIsdigit (s : PyS) : Bool := !s.isEmpty && s.all Char.isDigit

/-- Model of Python `str.isalpha()`: non-empty and every character alphabetic. -/
def pyIsalpha (s : PyS) : Bool := !s.isEmpty && s.all Char.isAlpha

/-- Model of Python `str.upper()`. -/
def pyUpper (s : PyS) : PyS := s.map Char.toUpper

/-- Model of Python `str.split()` with no separator: whitespace-separated
tokens, empty tokens discarded. -/
def pySplitWs (s : PyS) : List PyS :=
  (s.splitOnP Char.isWhitespace).filter (fun t => !t.isEmpty)

/-- Model of Python `value.replace(" ", "")`: remove every space character. -/
def pyRemoveSpaces (s : PyS) : PyS := s.filter (fun c => c ≠ ' ')

/-- Splits a string at the first occurrence of the (non-empty) separator
`sep`, returning the parts before and after it, or `none` when `sep` does
not occur. -/
def splitAtFirst (sep : PyS) : PyS → Option (PyS × PyS)
  | [] => none
  | c :: rest =>
    if sep.isPrefixOf (c :: rest) then some ([], (c :: rest).drop sep.length)
    else
      match splitAtFirst sep rest with
      | none => none
      | some (a, b) => some (c :: a, b)

/-- Fuel-driven worker for `pySplitSub`. -/
def pySplitSubGo (sep : PyS) : Nat → PyS → List PyS
  | 0, s => [s]
  | fuel + 1, s =>
    match splitAtFirst sep s with
    | none => [s]
    | some (a, b) => a :: pySplitSubGo sep fuel b

/-- Model of Python `s.split(sep)` for a non-empty separator string:
repeatedly split at the leftmost occurrence.  `s.length + 1` units of fuel
always suffice because every split consumes at least one character. -/
def pySplitSub (sep s : PyS) : List PyS := pySplitSubGo sep (s.length + 1) s

/-- Scan of all suffixes for an occurrence of `sep`; models Python substring
membership `sep in s`. -/
def occurs (sep : PyS) : PyS → Bool
  | [] => sep.isPrefixOf []
  | c :: rest => sep.isPrefixOf (c :: rest) || occurs sep rest

/-- Model of Python `sub in s`. -/
def pyContainsSub (s sub : PyS) : Bool := occurs sub s

/-- Model of Python `s.replace(sub, "")`: remove every occurrence of `sub`. -/
def pyRemoveSub (s sub : PyS) : PyS := (pySplitSub sub s).flatten

/-- Fuel-driven worker for `natDigits`. -/
def natDigitsAux : Nat → Nat → PyS
  | 0, _ => []
  | fuel + 1, n =>
    if n < 10 then [Char.ofNat (48 + n)]
    else natDigitsAux fuel (n / 10) ++ [Char.ofNat (48 + n % 10)]

/-- Model of Python `str(n)` for a natural number: decimal digits, most
significant first. -/
def natDigits (n : Nat) : PyS := natDigitsAux (n + 1) n

/-! ## The Field Validator (`validate_school_data`, lines 106-201) -/

/-- The ten required fields of `validate_school_data` (keys of the
`required_fields` dict, lines 137-148), in dict insertion order. -/
inductive ReqField where
  | schoolName
  | address1
  | city
  | state
  | zip
  | phone
  | website
  | district
  | grades
  | principal
deriving DecidableEq

/-- The dict key string of each required field. -/
def fieldName : ReqField → PyS
  | .schoolName => "School Name".toList
  | .address1 => "Address 1".toList
  | .city => "City".toList
  | .state => "State".toList
  | .zip => "Zip".toList
  | .phone => "Phone".toList
  | .website => "School Website".toList
  | .district => "District".toList
  | .grades => "Grades Served".toList
  | .principal => "Principal Name".toList

/-- Iteration order of `required_fields` (lines 137-148). -/
def requiredFields : List ReqField :=
  [.schoolName, .address1, .city, .state, .zip,
   .phone, .website, .district, .grades, .principal]

/-- A record as seen by the validator: `data.get(field)` for each required
field; `none` models an absent key. -/
def Record := ReqField → Option PyS

/-- The sentinel `"Not Found"`. -/
def notFound : PyS := "Not Found".toList

/-- The 51-entry `valid_states` set (lines 114-121). -/
def validStates : List PyS :=
  ["AL", "AK", "AZ", "AR", "CA", "CO", "CT", "DE", "FL", "GA",
   "HI", "ID", "IL", "IN", "IA", "KS", "KY", "LA", "ME", "MD",
   "MA", "MI", "MN", "MS", "MO", "MT", "NE", "NV", "NH", "NJ",
   "NM", "NY", "NC", "ND", "OH", "OK", "OR", "PA", "RI", "SC",
   "SD", "TN", "TX", "UT", "VT", "VA", "WA", "WV", "WI", "WY",
   "DC"].map String.toList

/-- `is_valid_phone` (lines 124-127): exactly 10 digits after removing all
non-digit characters. -/
def is_valid_phone (phone : PyS) : Bool := (phone.filter Char.isDigit).length == 10

/-- `is_valid_url` (lines 130-131): starts with `http://` or `https://`. -/
def is_valid_url (url : PyS) : Bool :=
  "http://".toList.isPrefixOf url || "https://".toList.isPrefixOf url

/-- `is_valid_school_name` (lines 134-135): length at least 3 and at least
one alphabetic character. -/
def is_valid_school_name (s : PyS) : Bool :=
  decide (3 ≤ s.length) && s.any Char.isAlpha

/-- The field-specific checks of the validator loop body (lines 156-189),
applied to the trimmed value.  Returns the exact issue string appended on
failure, or `none` when the field passes. -/
def checkField : ReqField → PyS → Option PyS
  | .zip, v =>
    if !(pyIsdigit v && v.length == 5) then
      some "Invalid ZIP format - must be 5 digits".toList
    else none
  | .state, v =>
    if !(validStates.contains (pyUpper v)) then
      some "Invalid state abbreviation".toList
    else none
  | .phone, v =>
    if !(is_valid_phone v) then some "Invalid phone number format".toList else none
  | .website, v =>
    if !(is_valid_url v) then some "Invalid website URL format".toList else none
  | .schoolName, v =>
    if !(is_valid_school_name v) then some "Invalid school name format".toList else none
  | .city, v =>
    if !(pyIsalpha (pyRemoveSpaces v)) then
      some "City name should only contain letters".toList
    else none
  | .principal, v =>
    if (pySplitWs v).length < 2 then
      some "Principal name should include first and last name".toList
    else none
  | _, _ => none

/-- One iteration of the validator's `for field, message in required_fields`
loop (lines 150-193), threading the pair (filled_fields, issues). -/
def validateStep (data : Record) (acc : Nat × List PyS) (f : ReqField) : Nat × List PyS :=
  match data f with
  | some v =>
    if !v.isEmpty && v != notFound then
      match checkField f (pyStrip v) with
      | some issue => (acc.1, acc.2 ++ [issue])
      | none => (acc.1 + 1, acc.2)
    else (acc.1, acc.2 ++ [fieldName f ++ " not available".toList])
  | none => (acc.1, acc.2 ++ [fieldName f ++ " not available".toList])

/-- The validator's result dict. -/
structure ValidationReport where
  is_valid : Bool
  issues : List PyS
  score : Nat
deriving DecidableEq

/-- `validate_school_data` (lines 106-201): iterate the required fields,
then `score = filled_fields * 100 // total_fields` and
`is_valid = (score == 100)`. -/
def validate_school_data (data : Record) : ValidationReport :=
  let r := requiredFields.foldl (validateStep data) (0, [])
  let score := r.1 * 100 / requiredFields.length
  { is_valid := score == 100, issues := r.2, score := score }

/-! ## Spec-side restatement of the Field Validator (spec section 4.1)

These definitions follow the specification's wording of the validation
algorithm and are compared with `validate_school_data` in the refinement
theorem for the corresponding claim.  "Present" is read through the data
model invariant (every field maps to a non-empty value or the sentinel):
a field is missing when it is absent or empty. -/

/-- The field-specific pass rules of spec section 4.1, written from the
spec's wording, evaluated on the trimmed value. -/
def specFieldRule : ReqField → PyS → Bool
  | .zip, v => v.all Char.isDigit && v.length == 5
  | .state, v => validStates.contains (pyUpper v)
  | .phone, v => (v.filter Char.isDigit).length == 10
  | .website, v => "http://".toList.isPrefixOf v || "https://".toList.isPrefixOf v
  | .schoolName, v => decide (3 ≤ v.length) && v.any Char.isAlpha
  | .city, v => !(pyRemoveSpaces v).isEmpty && (pyRemoveSpaces v).all Char.isAlpha
  | .principal, v => decide (2 ≤ (pySplitWs v).length)
  | _, _ => true

/-- The failure issue string named by spec section 4.1 for each rule-checked
field (arbitrary for the presence-only fields, whose rule never fails). -/
def specIssue : ReqField → PyS
  | .zip => "Invalid ZIP format - must be 5 digits".toList
  | .state => "Invalid state abbreviation".toList
  | .phone => "Invalid phone number format".toList
  | .website => "Invalid website URL format".toList
  | .schoolName => "Invalid school name format".toList
  | .city => "City name should only contain letters".toList
  | .principal => "Principal name should include first and last name".toList
  | _ => []

/-- Spec-side per-field pass over a field list: filled count and the issue
sequence in field-iteration order. -/
def specResults (data : Record) : List ReqField → Nat × List PyS
  | [] => (0, [])
  | f :: fs =>
    let rest := specResults data fs
    match data f with
    | none => (rest.1, (fieldName f ++ " not available".toList) :: rest.2)
    | some v =>
      if v.isEmpty || v == notFound then
        (rest.1, (fieldName f ++ " not available".toList) :: rest.2)
      else if specFieldRule f (pyStrip v) then (rest.1 + 1, rest.2)
      else (rest.1, specIssue f :: rest.2)

/-- The validator as the spec describes it: per-field results, then
`score = floor(filledCount * 100 / totalRequiredFields)` and
`isValid` iff `score == 100`. -/
def validate_spec (data : Record) : ValidationReport :=
  let r := specResults data requiredFields
  let score := r.1 * 100 / requiredFields.length
  { is_valid := score == 100, issues := r.2, score := score }

/-! ## Detail Extractor: address decomposition (lines 249-262) -/

/-- The City/State/Zip/Address-2 slots touched by the address pass. -/
structure AddrFields where
  address2 : PyS
  city : PyS
  state : PyS
  zip : PyS
deriving DecidableEq

/-- `address_lines` (line 251):
`address_element.text.replace("Address:\n", "").strip().split("\n")`. -/
def addrLines (text : PyS) : List PyS :=
  pySplitSub "\n".toList (pyStrip (pyRemoveSub text "Address:\n".toList))

/-- `city_state_zip` (line 254): the last address line split on `", "`. -/
def cityStateZip (text : PyS) : List PyS :=
  pySplitSub ", ".toList ((addrLines text).getLastD [])

/-- `state_zip` (line 257): the second `", "` segment split on whitespace. -/
def stateZipTokens (text : PyS) : List PyS :=
  pySplitWs ((cityStateZip text).getD 1 [])

/-- The address-decomposition pass (lines 249-262), acting on the fields the
primary pass already set.  Mirrors the nesting of the three `if`s: Address 2
is set when there are at least two lines, City when the last line yields at
least two `", "` segments, and State/Zip only when the state-zip segment
splits into exactly two whitespace tokens. -/
def addressPass (cur : AddrFields) (text : PyS) : AddrFields :=
  if 2 ≤ (addrLines text).length then
    let cur1 := { cur with address2 := (addrLines text).headD [] }
    if 2 ≤ (cityStateZip text).length then
      let cur2 := { cur1 with city := pyStrip ((cityStateZip text).headD []) }
      if (stateZipTokens text).length = 2 then
        { cur2 with state := (stateZipTokens text).headD [],
                    zip := (stateZipTokens text).getD 1 [] }
      else cur2
    else cur1
  else cur

/-! ## Page-number provenance (lines 85-98 and line 415) -/

/-- The literal `page=`. -/
def pageSep : PyS := "page=".toList

/-- The page-number token append of `extract_school_links` (lines 90-93):
`link + '&page=n'` when the link already has a query string (contains `?`),
else `link + '?page=n'`. -/
def add_page_token (href : PyS) (pageNumber : Nat) : PyS :=
  if href.contains '?' then href ++ ('&' :: (pageSep ++ natDigits pageNumber))
  else href ++ ('?' :: (pageSep ++ natDigits pageNumber))

/-- The batch worker's page-number parse (line 415):
`link.split('page=')[1].split('&')[0] if 'page=' in link else "1"`. -/
def parse_page_number (link : PyS) : PyS :=
  if pyContainsSub link pageSep then
    (pySplitSub ['&'] ((pySplitSub pageSep link).getD 1 [])).headD []
  else "1".toList

/-! ## Listing Walker (`retry_operation`, `select_grade_level`,
`get_all_school_links_first`, lines 39-67 and 355-402)

The Selenium-bound behaviour is supplied as data: `att g i` is the outcome
of attempt `i` of `_select` for grade `g` (an exception or a returned
boolean), `pageLinks p` the links the link extractor collects from listing
page `p` (it catches its own exceptions and returns a list, line 100-103),
and `nav p` whether `navigate_to_next_page` succeeds from page `p` (it
returns `False` on any failure, lines 333-353). -/

/-- Fuel-driven worker for `retry_operation`; `attempt` is the loop index. -/
def retryGo {α : Type} (f : Nat → Except Unit α) (maxRetries : Nat) :
    Nat → Nat → Except Unit (Option α)
  | _, 0 => Except.ok none
  | attempt, fuel + 1 =>
    match f attempt with
    | Except.ok a => Except.ok (some a)
    | Except.error e =>
      if attempt = maxRetries - 1 then Except.error e
      else retryGo f maxRetries (attempt + 1) fuel

/-- `retry_operation` (lines 39-47): call `f` up to `maxRetries` times,
return the first successful result, re-raise the exception of the final
attempt, and return `None` if the loop body never runs. -/
def retry_operation {α : Type} (f : Nat → Except Unit α) (maxRetries : Nat) :
    Except Unit (Option α) :=
  retryGo f maxRetries 0 maxRetries

/-- `select_grade_level` (lines 50-67): `_select` under `retry_operation`
with the default bound of 3 attempts. -/
def select_grade_level (attempts : Nat → Except Unit Bool) : Except Unit (Option Bool) :=
  retry_operation attempts 3

/-- The grade filters applied by the walker (line 370). -/
def gradeLevels : List String := ["Early Education", "Prekindergarten", "Kindergarten"]

/-- The walker's filter loop (lines 370-374): a falsy selection result is
logged and skipped, while an exception escapes the loop. -/
def filterPhase (sel : String → Except Unit (Option Bool)) : List String → Except Unit Unit
  | [] => Except.ok ()
  | g :: gs =>
    match sel g with
    | Except.error e => Except.error e
    | Except.ok _ => filterPhase sel gs

/-- The page-cap test (line 388): `MAX_PAGES and page_number >= MAX_PAGES`,
with `none`/`some 0` both falsy. -/
def capReached (cap : Option Nat) (page : Nat) : Bool :=
  match cap with
  | none => false
  | some m => !(m == 0) && decide (m ≤ page)

/-- The walker's paging loop (lines 376-396): collect the page's links (stop
when there are none), extend the accumulator, record the last page, stop at
the page cap or when navigation to the next page fails, else advance.  The
loop has no intrinsic bound, so it takes explicit fuel; every theorem about
it supplies enough fuel for the run it describes. -/
def pagingLoop {α : Type} (pageLinks : Nat → List α) (nav : Nat → Bool) (cap : Option Nat) :
    Nat → Nat → List α → Nat → List α × Nat
  | 0, _, acc, lastPage => (acc, lastPage)
  | fuel + 1, page, acc, lastPage =>
    match pageLinks page with
    | [] => (acc, lastPage)
    | l :: ls =>
      let acc' := acc ++ (l :: ls)
      if capReached cap page then (acc', page)
      else if nav page then pagingLoop pageLinks nav cap fuel (page + 1) acc' page
      else (acc', page)

/-- `get_all_school_links_first` (lines 355-402): the filter loop followed by
the paging loop, inside one `try`; an exception escaping the filter loop is
caught by the outer handler, which returns the links collected so far (none)
with the initial page numbers. -/
def get_all_school_links_first {α : Type} (att : String → Nat → Except Unit Bool)
    (grades : List String) (pageLinks : Nat → List α) (nav : Nat → Bool)
    (cap : Option Nat) (fuel : Nat) : List α × Nat × Nat :=
  match filterPhase (fun g => select_grade_level (att g)) grades with
  | Except.error _ => ([], 1, 1)
  | Except.ok _ =>
    let r := pagingLoop pageLinks nav cap fuel 1 [] 1
    (r.1, 1, r.2)

/-! ## Orchestrator (`process_school_links_parallel` and `scrape_schools`,
lines 433-505)

Each submitted batch either returns its record list or raises; the
collection loop iterates the futures in submission order. -/

/-- The result-collection loop of `process_school_links_parallel`
(lines 454-464): append each successful batch's records, skip a batch whose
`future.result()` raises. -/
def collectBatches {α : Type} (results : List (Except Unit (List α))) : List α :=
  results.foldl
    (fun acc r =>
      match r with
      | Except.ok l => acc ++ l
      | Except.error _ => acc)
    []

/-- The Phase-2 pool size (line 486): `multiprocessing.cpu_count() - 1`. -/
def num_processes (cpuCount : Nat) : Nat := cpuCount - 1

/-- Observable outcome of one `scrape_schools` run. -/
structure ScrapeOutcome (α : Type) where
  exitCode : Nat
  finalFileWritten : Bool
  finalRecords : List α
deriving DecidableEq

/-- `scrape_schools` (lines 468-505) as a function of Phase 1's link set,
the CPU count, and the batch outcomes.  With no links the function returns
early; with a zero worker pool `ProcessPoolExecutor` raises `ValueError`,
caught by the outer handler; otherwise the final file is written exactly
when the cumulative record list is non-empty.  Every path returns normally,
so the interpreter's exit code is always 0. -/
def scrape_schools {α β : Type} (allLinks : List β) (cpuCount : Nat)
    (batchResults : List (Except Unit (List α))) : ScrapeOutcome α :=
  if allLinks.isEmpty then
    { exitCode := 0, finalFileWritten := false, finalRecords := [] }
  else if num_processes cpuCount = 0 then
    { exitCode := 0, finalFileWritten := false, finalRecords := [] }
  else if (collectBatches batchResults).isEmpty then
    { exitCode := 0, finalFileWritten := false, finalRecords := [] }
  else
    { exitCode := 0, finalFileWritten := true, finalRecords := collectBatches batchResults }

/-! ## Concrete fixtures used by witnesses -/

/-- A record whose presence-only required fields hold whitespace-only
strings and whose rule-checked fields hold the values of the repository's
own unit-test fixture. -/
def wsRecord : Record := fun f =>
  match f with
  | .schoolName => some "Test Elementary School".toList
  | .address1 => some " ".toList
  | .city => some "Austin".toList
  | .state => some "TX".toList
  | .zip => some "78701".toList
  | .phone => some "512-555-0123".toList
  | .website => some "https://test.school.edu".toList
  | .district => some "  ".toList
  | .grades => some " ".toList
  | .principal => some "John Smith".toList

/-- The records a single future contributes: its list on success, nothing
when `future.result()` raises. -/
def batchRecords {α : Type} : Except Unit (List α) → List α
  | Except.ok l => l
  | Except.error _ => []

/-- A concrete primary-pass state for the address-pass witness. -/
def oldAddr : AddrFields :=
  { address2 := [], city := "Old".toList, state := "XX".toList, zip := "00000".toList }

/-- A concrete address block whose state-zip segment has three tokens. -/
def annexText : PyS := "Address:\nSuite 5\nEl Paso, TX 79901 Annex".toList

/-! ## Proofs: the Field Validator -/

/-- Swapping the branches of an `if` on a negated condition. -/
lemma if_not_bool {α : Type} (b : Bool) (x y : α) :
    (if (!b) = true then x else y) = if b = true then y else x := by
  cases b <;> simp

/-- Each field-specific check of the source agrees with the spec's rule
table: it passes exactly when the rule holds and otherwise yields the
rule's issue string. -/
lemma checkField_eq (f : ReqField) (v : PyS) :
    checkField f v = if specFieldRule f v = true then none else some (specIssue f) := by
  cases f
  case schoolName =>
    simp only [checkField, specFieldRule, specIssue, is_valid_school_name, if_not_bool]
  case address1 => simp [checkField, specFieldRule]
  case city =>
    simp only [checkField, specFieldRule, specIssue, pyIsalpha, if_not_bool]
  case state =>
    simp only [checkField, specFieldRule, specIssue, if_not_bool]
  case zip =>
    have hxy : (pyIsdigit v && v.length == 5) = (v.all Char.isDigit && v.length == 5) := by
      cases v with
      | nil => decide
      | cons c t => simp [pyIsdigit]
    simp only [checkField, specFieldRule, specIssue, hxy, if_not_bool]
  case phone =>
    simp only [checkField, specFieldRule, specIssue, is_valid_phone, if_not_bool]
  case website =>
    simp only [checkField, specFieldRule, specIssue, is_valid_url, if_not_bool]
  case district => simp [checkField, specFieldRule]
  case grades => simp [checkField, specFieldRule]
  case principal =>
    simp only [checkField, specFieldRule, specIssue]
    rcases Nat.lt_or_ge (pySplitWs v).length 2 with h | h
    · have h' : ¬ 2 ≤ (pySplitWs v).length := Nat.not_le.mpr h
      simp [h, h']
    · have h' : ¬ (pySplitWs v).length < 2 := Nat.not_lt.mpr h
      simp [h, h']

/-- The validator's left fold equals the spec-side per-field pass, shifted
by the starting accumulator. -/
lemma foldl_validateStep (data : Record) :
    ∀ (fs : List ReqField) (acc : Nat × List PyS),
      fs.foldl (validateStep data) acc =
        (acc.1 + (specResults data fs).1, acc.2 ++ (specResults data fs).2) := by
  intro fs
  induction fs with
  | nil => intro acc; simp [specResults]
  | cons f fs ih =>
    intro acc
    rw [List.foldl_cons, ih]
    cases hdf : data f with
    | none =>
      simp [validateStep, specResults, hdf, List.append_assoc]
    | some v =>
      cases hb : (v.isEmpty || v == notFound) with
      | true =>
        have hg : (!v.isEmpty && v != notFound) = false := by
          rcases Bool.or_eq_true_iff.mp hb with h | h <;> simp [h, bne]
        simp [validateStep, specResults, hdf, hb, hg, List.append_assoc]
      | false =>
        obtain ⟨h1, h2⟩ := Bool.or_eq_false_iff.mp hb
        have hg : (!v.isEmpty && v != notFound) = true := by simp [h1, bne, h2]
        cases hr : specFieldRule f (pyStrip v) with
        | true =>
          simp only [validateStep, hdf, hg, if_true, checkField_eq, hr, if_pos rfl,
            specResults, hb, Bool.false_eq_true, if_false]
          simp [Prod.ext_iff]
          omega
        | false =>
          have hr' : ¬ specFieldRule f (pyStrip v) = true := by simp [hr]
          simp [validateStep, specResults, hdf, hg, hb, checkField_eq, hr',
            List.append_assoc]

/-- C2: `validate_school_data` implements the reference algorithm of the
spec — per required field, the presence gate followed by the field-specific
rule on the trimmed value (Zip all-digit length 5; State uppercase in the
51-entry set; Phone exactly 10 digits after stripping non-digits; Website
`http://`/`https://`; Name length at least 3 with a letter; City alphabetic
after removing spaces; Principal at least 2 whitespace tokens), each failing
field contributing its exact issue string and not counting as filled;
`score = floor(filled * 100 / 10)` by truncating division and `is_valid`
iff `score = 100`.  Stated as equality with the spec-side restatement
`validate_spec` on every record. -/
theorem validate_school_data_refines_spec (data : Record) :
    validate_school_data data = validate_spec data := by
  unfold validate_school_data validate_spec
  rw [foldl_validateStep]
  simp

/-- A fold over fields that are all absent or sentinel only appends the
per-field "not available" messages. -/
lemma foldl_validateStep_missing (data : Record) :
    ∀ (fs : List ReqField) (acc : Nat × List PyS),
      (∀ f ∈ fs, data f = none ∨ data f = some notFound) →
      fs.foldl (validateStep data) acc =
        (acc.1, acc.2 ++ fs.map (fun f => fieldName f ++ " not available".toList)) := by
  intro fs
  induction fs with
  | nil => intro acc _; simp
  | cons f fs ih =>
    intro acc h
    rw [List.foldl_cons]
    have hstep : validateStep data acc f = (acc.1, acc.2 ++ [fieldName f ++ " not available".toList]) := by
      rcases h f (List.mem_cons_self f fs) with hf | hf
      · simp [validateStep, hf]
      · simp [validateStep, hf, notFound, bne]
    rw [hstep, ih _ (fun g hg => h g (List.mem_cons_of_mem f hg))]
    simp [List.append_assoc]

/-- C1: on a record in which each of the 10 required fields is absent or the
sentinel `"Not Found"`, `validate_school_data` returns score 0, is_valid
false, and exactly one `"<Field> not available"` issue per required field,
in the fixed field-iteration order. -/
theorem validate_all_missing (data : Record)
    (h : ∀ f ∈ requiredFields, data f = none ∨ data f = some notFound) :
    validate_school_data data =
      { is_valid := false, score := 0,
        issues := requiredFields.map (fun f => fieldName f ++ " not available".toList) } ∧
    (requiredFields.map (fun f => fieldName f ++ " not available".toList)).length = 10 := by
  constructor
  · unfold validate_school_data
    rw [foldl_validateStep_missing data requiredFields (0, []) h]
    simp
  · decide

/-- Witness for `validate_all_missing`, at the everywhere-absent record. -/
theorem validate_all_missing_witness :
    (∀ f ∈ requiredFields, (fun (_ : ReqField) => (none : Option PyS)) f = none ∨
        (fun (_ : ReqField) => (none : Option PyS)) f = some notFound) ∧
    (validate_school_data (fun _ => none) =
      { is_valid := false, score := 0,
        issues := requiredFields.map (fun f => fieldName f ++ " not available".toList) } ∧
    (requiredFields.map (fun f => fieldName f ++ " not available".toList)).length = 10) :=
  ⟨by decide, validate_all_missing (fun _ => none) (by decide)⟩

/-- C10: the presence gate tests the raw value for truthiness, so a
presence-only required field (Address 1, District, Grades Served) holding a
non-empty all-whitespace string is counted as filled with no issue
appended; in particular `wsRecord`, whose three presence-only fields are
whitespace-only, reaches score 100 and is_valid true with no issues. -/
theorem presence_gate_whitespace :
    (∀ (data : Record) (acc : Nat × List PyS) (f : ReqField) (s : PyS),
        (f = ReqField.address1 ∨ f = ReqField.district ∨ f = ReqField.grades) →
        data f = some s → s ≠ [] → s.all Char.isWhitespace = true →
        validateStep data acc f = (acc.1 + 1, acc.2)) ∧
    validate_school_data wsRecord = { is_valid := true, issues := [], score := 100 } := by
  constructor
  · intro data acc f s hf hdf hne hws
    have hnf : (s == notFound) = false := by
      cases hbeq : s == notFound with
      | false => rfl
      | true =>
        exfalso
        have : s = notFound := by simpa using hbeq
        subst this
        exact absurd hws (by decide)
    have hie : s.isEmpty = false := by
      cases s with
      | nil => exact absurd rfl hne
      | cons c t => rfl
    rcases hf with rfl | rfl | rfl <;> simp [validateStep, hdf, hie, hnf, bne, checkField]
  · decide

/-- Witness for `presence_gate_whitespace`: the whitespace-only Address 1
of `wsRecord` is counted as filled with no issue. -/
theorem presence_gate_whitespace_witness :
    validateStep wsRecord (0, []) ReqField.address1 = (0 + 1, []) :=
  presence_gate_whitespace.1 wsRecord (0, []) ReqField.address1 " ".toList
    (Or.inl rfl) rfl (by decide) (by decide)

/-! ## Proofs: Orchestrator (pool size, batch isolation, exit behaviour) -/

/-- C5 counterexample: the source computes `cpu_count() - 1` with no minimum
clamp, so at CPU count 1 the pool size is 0, not `max(1 - 1, 1) = 1` as the
claim states. -/
theorem num_processes_counterexample :
    num_processes 1 = 0 ∧ max (1 - 1) 1 = 1 ∧ num_processes 1 ≠ max (1 - 1) 1 := by
  decide

/-- C5 amended: the pool size is `cpu_count() - 1` with no minimum clamp; it
equals `max(c - 1, 1)` only for CPU counts of at least 2, and at CPU count 1
it is 0 (on which `ProcessPoolExecutor` construction fails). -/
theorem num_processes_amended :
    num_processes 1 = 0 ∧
    ∀ cpuCount : Nat, 2 ≤ cpuCount → num_processes cpuCount = max (cpuCount - 1) 1 := by
  constructor
  · rfl
  · intro c h
    unfold num_processes
    omega

/-- Witness for `num_processes_amended` at CPU count 2. -/
theorem num_processes_amended_witness : num_processes 2 = max (2 - 1) 1 :=
  num_processes_amended.2 2 (by decide)

/-- The collection fold appends each batch's contribution in order. -/
lemma foldl_collect {α : Type} :
    ∀ (rs : List (Except Unit (List α))) (acc : List α),
      rs.foldl (fun a r => a ++ batchRecords r) acc = acc ++ (rs.map batchRecords).flatten := by
  intro rs
  induction rs with
  | nil => intro acc; simp
  | cons r rs ih =>
    intro acc
    rw [List.foldl_cons, ih]
    simp

/-- The collection loop computes the concatenation of the per-batch
contributions. -/
lemma collectBatches_eq {α : Type} (rs : List (Except Unit (List α))) :
    collectBatches rs = (rs.map batchRecords).flatten := by
  unfold collectBatches
  have hf : (fun (acc : List α) (r : Except Unit (List α)) =>
      match r with
      | Except.ok l => acc ++ l
      | Except.error _ => acc) = fun acc r => acc ++ batchRecords r := by
    funext acc r
    cases r <;> simp [batchRecords]
  rw [hf, foldl_collect]
  rfl

/-- C7: batch failure is isolated — with the batches before and after a
raising batch arbitrary, the cumulative result of the collection loop
(which is a total function: the run is not halted) contains no records from
the raising batch and exactly the other batches' records, in submission
order and unchanged; and when every batch succeeds the result is exactly
the concatenation of all batch record lists. -/
theorem batch_isolation {α : Type} (before after : List (Except Unit (List α)))
    (batches : List (List α)) :
    collectBatches (before ++ Except.error () :: after) =
      collectBatches before ++ collectBatches after ∧
    collectBatches (batches.map Except.ok) = batches.flatten := by
  constructor
  · simp [collectBatches_eq, batchRecords]
  · simp [collectBatches_eq, List.map_map]
    have : batchRecords ∘ (Except.ok : List α → Except Unit (List α)) = id := by
      funext l
      rfl
    rw [this, List.map_id]

/-- C4 counterexample: when Phase 1 yields zero links the interpreter still
exits with code 0 (the source returns normally from `scrape_schools`), so
the claimed non-zero exit does not happen. -/
theorem scrape_exit_counterexample :
    (scrape_schools ([] : List PyS) 4 ([] : List (Except Unit (List PyS)))).exitCode = 0 ∧
    (scrape_schools ([] : List PyS) 4
        ([] : List (Except Unit (List PyS)))).finalFileWritten = false := by
  constructor <;> rfl

/-- C4 amended: the process always exits with code zero; if Phase 1 yields
zero links the run terminates without writing any output file; and when the
pool is constructible (CPU count at least 2) and at least one record was
extracted, the final consolidated file is written — even if some batches
failed — containing exactly the collected records. -/
theorem scrape_outcome {α β : Type} (links : List β) (cpuCount : Nat)
    (batchResults : List (Except Unit (List α))) :
    (scrape_schools links cpuCount batchResults).exitCode = 0 ∧
    (links = [] →
      scrape_schools links cpuCount batchResults =
        { exitCode := 0, finalFileWritten := false, finalRecords := [] }) ∧
    (links ≠ [] → 2 ≤ cpuCount → collectBatches batchResults ≠ [] →
      (scrape_schools links cpuCount batchResults).finalFileWritten = true ∧
      (scrape_schools links cpuCount batchResults).finalRecords =
        collectBatches batchResults) := by
  refine ⟨?_, ?_, ?_⟩
  · unfold scrape_schools
    split
    · rfl
    · split
      · rfl
      · split <;> rfl
  · intro h
    unfold scrape_schools
    rw [if_pos (List.isEmpty_iff.mpr h)]
  · intro hlinks hcpu hrec
    have h1 : links.isEmpty = false := by
      cases hl : links.isEmpty with
      | false => rfl
      | true => exact absurd (List.isEmpty_iff.mp hl) hlinks
    have h2 : ¬ num_processes cpuCount = 0 := by
      unfold num_processes
      omega
    have h3 : (collectBatches batchResults).isEmpty = false := by
      cases hl : (collectBatches batchResults).isEmpty with
      | false => rfl
      | true => exact absurd (List.isEmpty_iff.mp hl) hrec
    unfold scrape_schools
    rw [h1, h3]
    simp [h2]

/-- Witness for `scrape_outcome`: one successful, one raising and one more
successful batch over a non-empty link set on a 4-CPU host. -/
theorem scrape_outcome_witness :
    (scrape_schools [(0 : Nat)] 4
        [Except.ok [(7 : Nat)], Except.error (), Except.ok [9]]).finalFileWritten = true ∧
    (scrape_schools [(0 : Nat)] 4
        [Except.ok [(7 : Nat)], Except.error (), Except.ok [9]]).finalRecords =
      collectBatches [Except.ok [(7 : Nat)], Except.error (), Except.ok [9]] :=
  scrape_outcome [0] 4 [Except.ok [7], Except.error (), Except.ok [9]]
    |>.2.2 (by decide) (by decide) (by simp [collectBatches])

/-! ## Proofs: address decomposition -/

/-- C6 counterexample: on an address block whose state-zip segment splits
into 3 whitespace tokens (not 2), State and Zip keep the primary pass's
values but City is overwritten — the source assigns City before testing the
token count, refuting the claim that City is left unchanged. -/
theorem address_frame_counterexample :
    addressPass { address2 := notFound, city := notFound, state := notFound, zip := notFound }
        "Address:\n123 Main St\nAustin, TX 78701 USA".toList =
      { address2 := "123 Main St".toList, city := "Austin".toList,
        state := notFound, zip := notFound } ∧
    (stateZipTokens "Address:\n123 Main St\nAustin, TX 78701 USA".toList).length = 3 ∧
    "Austin".toList ≠ notFound := by
  decide

/-- C6 amended: whenever the state-zip segment does not split into exactly
two whitespace tokens, State and Zip are left at whatever the primary pass
already set and no exception propagates (`addressPass` is total); City,
however, is already set to the trimmed first `", "` segment whenever the
block has at least two lines and the last line at least two segments, and is
left unchanged only when one of those two guards fails. -/
theorem address_partial_frame (cur : AddrFields) (text : PyS)
    (h : (stateZipTokens text).length ≠ 2) :
    (addressPass cur text).state = cur.state ∧
    (addressPass cur text).zip = cur.zip ∧
    (2 ≤ (addrLines text).length → 2 ≤ (cityStateZip text).length →
      (addressPass cur text).city = pyStrip ((cityStateZip text).headD [])) ∧
    (¬ 2 ≤ (addrLines text).length ∨ ¬ 2 ≤ (cityStateZip text).length →
      (addressPass cur text).city = cur.city) := by
  by_cases h1 : 2 ≤ (addrLines text).length
  · by_cases h2 : 2 ≤ (cityStateZip text).length
    · refine ⟨?_, ?_, ?_, ?_⟩ <;> simp [addressPass, h1, h2, h]
    · refine ⟨?_, ?_, ?_, ?_⟩ <;> simp [addressPass, h1, h2]
  · refine ⟨?_, ?_, ?_, ?_⟩ <;> simp [addressPass, h1]

/-- Witness for `address_partial_frame` at a block whose state-zip segment
has three tokens. -/
theorem address_partial_frame_witness :
    (stateZipTokens annexText).length ≠ 2 ∧
    ((addressPass oldAddr annexText).state = oldAddr.state ∧
      (addressPass oldAddr annexText).zip = oldAddr.zip ∧
      (2 ≤ (addrLines annexText).length → 2 ≤ (cityStateZip annexText).length →
        (addressPass oldAddr annexText).city = pyStrip ((cityStateZip annexText).headD [])) ∧
      (¬ 2 ≤ (addrLines annexText).length ∨ ¬ 2 ≤ (cityStateZip annexText).length →
        (addressPass oldAddr annexText).city = oldAddr.city)) :=
  ⟨by decide, address_partial_frame oldAddr annexText (by decide)⟩

/-! ## Proofs: Listing Walker filter phase -/

/-- When the attempt function raises on attempts 0, 1 and 2,
`retry_operation` with the bound 3 re-raises after the third attempt. -/
lemma retry_operation_three_errors (f : Nat → Except Unit Bool)
    (h0 : f 0 = Except.error ()) (h1 : f 1 = Except.error ())
    (h2 : f 2 = Except.error ()) :
    retry_operation f 3 = Except.error () := by
  simp [retry_operation, retryGo, h0, h1, h2]

/-- The filter loop completes when no selection raises. -/
lemma filterPhase_ok (sel : String → Except Unit (Option Bool)) :
    ∀ gs : List String, (∀ g ∈ gs, ∃ b, sel g = Except.ok b) →
      filterPhase sel gs = Except.ok () := by
  intro gs
  induction gs with
  | nil => intro _; rfl
  | cons g gs ih =>
    intro h
    obtain ⟨b, hb⟩ := h g (List.mem_cons_self g gs)
    simp only [filterPhase, hb]
    exact ih (fun g' hg' => h g' (List.mem_cons_of_mem g hg'))

/-- The filter loop raises when some selection raises. -/
lemma filterPhase_error (sel : String → Except Unit (Option Bool)) :
    ∀ gs : List String, (∃ g ∈ gs, sel g = Except.error ()) →
      filterPhase sel gs = Except.error () := by
  intro gs
  induction gs with
  | nil => intro h; simp at h
  | cons g gs ih =>
    intro h
    obtain ⟨g', hg', herr⟩ := h
    cases hsel : sel g with
    | error e =>
      cases e
      simp [filterPhase, hsel]
    | ok b =>
      simp only [filterPhase, hsel]
      rcases List.mem_cons.mp hg' with rfl | hmem
      · exact absurd herr (by simp [hsel])
      · exact ih ⟨g', hmem, herr⟩

/-- C3 counterexample: a grade selection whose three attempts all raise
makes the walker return no links at all — the paging loop (which here would
collect the links of three pages) is never reached, refuting the claim that
the walk proceeds and collects links. -/
theorem filter_abort_counterexample :
    get_all_school_links_first (fun _ _ => Except.error ()) gradeLevels
        (fun p => if p ≤ 3 then [p] else []) (fun p => decide (p + 1 ≤ 3)) (some 15) 20 =
      ([], 1, 1) ∧
    pagingLoop (fun p => if p ≤ 3 then [p] else []) (fun p => decide (p + 1 ≤ 3)) (some 15)
        20 1 [] 1 = ([1, 2, 3], 3) ∧
    retry_operation (fun _ => (Except.error () : Except Unit Bool)) 3 = Except.error () := by
  refine ⟨by decide, by decide, rfl⟩

/-- C3 amended: a selection that fails by returning a value (without
raising) is a non-fatal skip — when no selection raises, the walker runs the
paging loop and returns its links; each selection is retried up to 3
attempts, and when a grade's attempts 0, 1 and 2 all raise, the re-raised
exception reaches the walker's outer handler, which aborts the walk and
returns no links instead of proceeding to the paging loop. -/
theorem filter_failure_behavior {α : Type} (att : String → Nat → Except Unit Bool)
    (grades : List String) (pageLinks : Nat → List α) (nav : Nat → Bool)
    (cap : Option Nat) (fuel : Nat) :
    ((∀ g ∈ grades, ∃ b, select_grade_level (att g) = Except.ok b) →
      get_all_school_links_first att grades pageLinks nav cap fuel =
        ((pagingLoop pageLinks nav cap fuel 1 [] 1).1, 1,
          (pagingLoop pageLinks nav cap fuel 1 [] 1).2)) ∧
    ((∃ g ∈ grades, att g 0 = Except.error () ∧ att g 1 = Except.error () ∧
        att g 2 = Except.error ()) →
      get_all_school_links_first att grades pageLinks nav cap fuel = ([], 1, 1)) := by
  constructor
  · intro h
    unfold get_all_school_links_first
    rw [filterPhase_ok _ grades h]
  · intro h
    obtain ⟨g, hg, h0, h1, h2⟩ := h
    unfold get_all_school_links_first
    rw [filterPhase_error _ grades
      ⟨g, hg, retry_operation_three_errors (att g) h0 h1 h2⟩]

/-- Witness for `filter_failure_behavior`: every attempt of every grade
selection raises, and the walker returns no links. -/
theorem filter_failure_behavior_witness :
    get_all_school_links_first (fun _ _ => Except.error ()) gradeLevels
        (fun p => if p ≤ 5 then [p] else []) (fun p => decide (p + 1 ≤ 5)) (some 15) 20 =
      ([], 1, 1) :=
  (filter_failure_behavior (fun _ _ => Except.error ()) gradeLevels
      (fun p => if p ≤ 5 then [p] else []) (fun p => decide (p + 1 ≤ 5)) (some 15) 20).2
    ⟨"Early Education", by decide, rfl, rfl, rfl⟩

/-! ## Proofs: Listing Walker paging loop -/

/-- On a simulated listing whose pages 1..K are non-empty, with the next-page
button present exactly below page K and the page cap M, the paging loop
starting at any page within range collects exactly the links of the pages up
to `min K M` and reports `min K M` as the last page. -/
lemma pagingLoop_sim {α : Type} (pageLinks : Nat → List α) (K M : Nat)
    (hne : ∀ p, 1 ≤ p → p ≤ K → pageLinks p ≠ []) :
    ∀ (fuel page : Nat) (acc : List α) (lp : Nat),
      1 ≤ page → page ≤ min K M → min K M - page < fuel →
      pagingLoop pageLinks (fun p => decide (p + 1 ≤ K)) (some M) fuel page acc lp =
        (acc ++ ((List.range' page (min K M - page + 1)).map pageLinks).flatten, min K M) := by
  intro fuel
  induction fuel with
  | zero => intro page acc lp h1 h2 h3; omega
  | succ n ih =>
    intro page acc lp h1 h2 h3
    have hpK : page ≤ K := le_trans h2 (Nat.min_le_left K M)
    have hpM : page ≤ M := le_trans h2 (Nat.min_le_right K M)
    cases hpl : pageLinks page with
    | nil => exact absurd hpl (hne page h1 hpK)
    | cons l ls =>
      by_cases hcap : M ≤ page
      · have hpm : page = min K M := by omega
        have hcr : capReached (some M) page = true := by
          simp only [capReached, Bool.and_eq_true, decide_eq_true_eq]
          refine ⟨?_, hcap⟩
          have hM0 : M ≠ 0 := by omega
          simp [hM0]
        have hone : min K M - page + 1 = 1 := by omega
        rw [hone]
        simp only [pagingLoop, hpl, hcr, if_true, List.range'_one, List.map_cons,
          List.map_nil, List.flatten_cons, List.flatten_nil, List.append_nil, hpl, ← hpm]
      · have hcr : capReached (some M) page = false := by
          simp only [capReached, Bool.and_eq_false_iff, decide_eq_false_iff_not]
          right
          omega
        by_cases hnav : page + 1 ≤ K
        · have hd : decide (page + 1 ≤ K) = true := by simp [hnav]
          have hp2 : page + 1 ≤ min K M := by omega
          simp only [pagingLoop, hpl, hcr, Bool.false_eq_true, if_false, hd, if_true]
          rw [ih (page + 1) (acc ++ (l :: ls)) page (by omega) hp2 (by omega)]
          have harith : min K M - (page + 1) + 1 = min K M - page := by omega
          rw [harith, List.range'_succ, List.map_cons, List.flatten_cons, hpl,
            List.append_assoc]
        · have hd : decide (page + 1 ≤ K) = false := by simp [hnav]
          have hpm : page = min K M := by omega
          have hone : min K M - page + 1 = 1 := by omega
          rw [hone]
          simp only [pagingLoop, hpl, hcr, Bool.false_eq_true, if_false, hd,
            List.range'_one, List.map_cons, List.map_nil, List.flatten_cons,
            List.flatten_nil, List.append_nil, hpl, ← hpm]

/-- C8: on a simulated listing with exactly K non-empty pages (pages above K
empty, next-page button present exactly below page K) and a configured page
cap M, the paging loop terminates: when K ≤ M it visits exactly pages 1..K,
collecting their links in order and reporting last page K, without a
(K+1)-st page visit; when M < K it stops at the cap, visiting exactly pages
1..M.  Fuel `min K M` suffices, so the loop performs exactly that many
iterations. -/
theorem paging_termination {α : Type} (pageLinks : Nat → List α) (K M fuel : Nat)
    (hK : 1 ≤ K) (hM : 1 ≤ M) (hfuel : min K M ≤ fuel)
    (hne : ∀ p, 1 ≤ p → p ≤ K → pageLinks p ≠ [])
    (_hempty : ∀ p, K < p → pageLinks p = []) :
    (K ≤ M →
      pagingLoop pageLinks (fun p => decide (p + 1 ≤ K)) (some M) fuel 1 [] 1 =
        (((List.range' 1 K).map pageLinks).flatten, K)) ∧
    (M < K →
      pagingLoop pageLinks (fun p => decide (p + 1 ≤ K)) (some M) fuel 1 [] 1 =
        (((List.range' 1 M).map pageLinks).flatten, M)) := by
  have hmin1 : 1 ≤ min K M := le_min hK hM
  have hrun := pagingLoop_sim pageLinks K M hne fuel 1 [] 1 le_rfl hmin1 (by omega)
  have harith : min K M - 1 + 1 = min K M := by omega
  rw [harith] at hrun
  constructor
  · intro hKM
    have : min K M = K := Nat.min_eq_left hKM
    rw [hrun, this]
    simp
  · intro hMK
    have : min K M = M := Nat.min_eq_right (Nat.le_of_lt hMK)
    rw [hrun, this]
    simp

/-- Witness for `paging_termination`: a 3-page listing under the source's
cap of 15, visiting exactly pages 1, 2, 3. -/
theorem paging_termination_witness :
    pagingLoop (fun p => if p ≤ 3 then [p] else []) (fun p => decide (p + 1 ≤ 3)) (some 15)
        20 1 [] 1 =
      (((List.range' 1 3).map (fun p => if p ≤ 3 then [p] else [])).flatten, 3) :=
  (paging_termination (fun p => if p ≤ 3 then [p] else []) 3 15 20 (by decide) (by decide)
      (by decide)
      (fun p h1 h2 => by simp [h2])
      (fun p hp => by
        have h : ¬ p ≤ 3 := by omega
        simp [h])).1 (by decide)

/-! ## Proofs: page-number provenance -/

/-- The decimal digit characters are digits. -/
lemma digit_char_isDigit (d : Nat) (h : d < 10) : (Char.ofNat (48 + d)).isDigit = true := by
  interval_cases d <;> decide

/-- Every character produced by `natDigitsAux` is a digit. -/
lemma natDigitsAux_isDigit :
    ∀ (fuel n : Nat) (c : Char), c ∈ natDigitsAux fuel n → c.isDigit = true := by
  intro fuel
  induction fuel with
  | zero => intro n c hc; simp [natDigitsAux] at hc
  | succ m ih =>
    intro n c hc
    rw [natDigitsAux] at hc
    split at hc
    · next h =>
      simp only [List.mem_singleton] at hc
      subst hc
      exact digit_char_isDigit n h
    · next h =>
      rw [List.mem_append] at hc
      rcases hc with hc | hc
      · exact ih (n / 10) c hc
      · simp only [List.mem_singleton] at hc
        subst hc
        exact digit_char_isDigit (n % 10) (Nat.mod_lt _ (by omega))

/-- Every character of the decimal representation is a digit. -/
lemma natDigits_isDigit (n : Nat) (c : Char) (hc : c ∈ natDigits n) : c.isDigit = true :=
  natDigitsAux_isDigit (n + 1) n c hc

/-- A non-empty list is never a prefix of the empty list. -/
lemma isPrefixOf_nil_of_ne (sep : PyS) (hsep : sep ≠ []) : sep.isPrefixOf [] = false := by
  cases sep with
  | nil => exact absurd rfl hsep
  | cons c t => rfl

/-- If `sep` is not a prefix of `a` and does not contain `q`, then `sep` is
not a prefix of `a ++ q :: b` either: a prefix reaching past `a` would have
to contain `q`. -/
lemma isPrefixOf_append_cons_false (sep a b : PyS) (q : Char) (hq : q ∉ sep)
    (ha : sep.isPrefixOf a = false) : sep.isPrefixOf (a ++ q :: b) = false := by
  cases hcon : sep.isPrefixOf (a ++ q :: b) with
  | false => rfl
  | true =>
    exfalso
    have hp : sep <+: a ++ q :: b := List.isPrefixOf_iff_prefix.mp hcon
    rcases le_or_lt sep.length a.length with hl | hl
    · have htake : sep = List.take sep.length (a ++ q :: b) := List.prefix_iff_eq_take.mp hp
      have htake2 : List.take sep.length (a ++ q :: b) = List.take sep.length a := by
        rw [List.take_append_eq_append_take]
        have hz : sep.length - a.length = 0 := by omega
        rw [hz]
        simp
      have hpa : sep <+: a := by
        rw [List.prefix_iff_eq_take]
        exact htake.trans htake2
      have : sep.isPrefixOf a = true := List.isPrefixOf_iff_prefix.mpr hpa
      rw [ha] at this
      exact Bool.false_ne_true this
    · obtain ⟨k, hk⟩ : ∃ k, sep.length - a.length = k + 1 :=
        ⟨sep.length - a.length - 1, by omega⟩
      have e1 : sep = List.take sep.length (a ++ q :: b) := List.prefix_iff_eq_take.mp hp
      have e2 : List.take sep.length (a ++ q :: b) =
          List.take sep.length a ++ (q :: List.take k b) := by
        rw [List.take_append_eq_append_take, hk, List.take_succ_cons]
      have : q ∈ sep := by
        rw [e1, e2]
        simp
      exact hq this

/-- Splitting at the first occurrence when the string starts with the
separator itself. -/
lemma splitAtFirst_sep_append (sep ds : PyS) (hsep : sep ≠ []) :
    splitAtFirst sep (sep ++ ds) = some ([], ds) := by
  cases hs : sep with
  | nil => exact absurd hs hsep
  | cons c t =>
    subst hs
    have hpre : ((c :: t).isPrefixOf (c :: (t ++ ds))) = true := by
      have h := List.prefix_append (c :: t) ds
      rw [List.cons_append] at h
      exact List.isPrefixOf_iff_prefix.mpr h
    rw [List.cons_append]
    simp only [splitAtFirst, hpre, if_true]
    have hdrop : (c :: (t ++ ds)).drop (c :: t).length = ds := by
      rw [← List.cons_append, List.drop_left]
    rw [hdrop]

/-- The first occurrence of `sep` in `href ++ q :: sep ++ ds` is the marked
one, provided `sep` does not occur in `href` and `q` is not a character of
`sep`. -/
lemma splitAtFirst_boundary (sep ds : PyS) (q : Char) (hsep : sep ≠ []) (hq : q ∉ sep) :
    ∀ href, occurs sep href = false →
      splitAtFirst sep (href ++ q :: (sep ++ ds)) = some (href ++ [q], ds) := by
  intro href
  induction href with
  | nil =>
    intro _
    have hnp : sep.isPrefixOf (q :: (sep ++ ds)) = false := by
      have h := isPrefixOf_append_cons_false sep [] (sep ++ ds) q hq
        (isPrefixOf_nil_of_ne sep hsep)
      simpa using h
    rw [List.nil_append]
    simp only [splitAtFirst, hnp, Bool.false_eq_true, if_false,
      splitAtFirst_sep_append sep ds hsep, List.nil_append]
  | cons c href' ih =>
    intro hocc
    have h1 : sep.isPrefixOf (c :: href') = false ∧ occurs sep href' = false := by
      simpa [occurs, Bool.or_eq_false_iff] using hocc
    have hnp : sep.isPrefixOf ((c :: href') ++ q :: (sep ++ ds)) = false :=
      isPrefixOf_append_cons_false sep (c :: href') (sep ++ ds) q hq h1.1
    rw [List.cons_append] at hnp
    rw [List.cons_append]
    simp only [splitAtFirst, hnp, Bool.false_eq_true, if_false, ih h1.2, List.cons_append]

/-- No occurrence means `splitAtFirst` finds nothing. -/
lemma splitAtFirst_eq_none (sep : PyS) :
    ∀ s, occurs sep s = false → splitAtFirst sep s = none := by
  intro s
  induction s with
  | nil => intro _; rfl
  | cons c rest ih =>
    intro h
    have h2 : sep.isPrefixOf (c :: rest) = false ∧ occurs sep rest = false := by
      simpa [occurs, Bool.or_eq_false_iff] using h
    simp only [splitAtFirst, h2.1, Bool.false_eq_true, if_false, ih h2.2]

/-- With no occurrence of the separator, splitting returns the whole string,
whatever the fuel. -/
lemma pySplitSubGo_of_none (sep s : PyS) (h : splitAtFirst sep s = none) :
    ∀ fuel, pySplitSubGo sep fuel s = [s] := by
  intro fuel
  cases fuel with
  | zero => rfl
  | succ m => simp only [pySplitSubGo, h]

/-- A string with the separator spliced in does contain it. -/
lemma occurs_sep_append (sep ds : PyS) (hsep : sep ≠ []) :
    ∀ pre, occurs sep (pre ++ sep ++ ds) = true := by
  intro pre
  induction pre with
  | nil =>
    cases hs : sep with
    | nil => exact absurd hs hsep
    | cons c t =>
      subst hs
      have hpre : ((c :: t).isPrefixOf (c :: (t ++ ds))) = true := by
        have h := List.prefix_append (c :: t) ds
        rw [List.cons_append] at h
        exact List.isPrefixOf_iff_prefix.mpr h
      simp only [List.nil_append, List.cons_append, occurs, List.append_eq]
      rw [hpre]
      simp
  | cons c pre' ih =>
    simp only [List.cons_append, occurs, List.append_eq] at ih ⊢
    rw [ih]
    simp

/-- An occurrence found by the scan is an infix. -/
lemma infix_of_occurs (sep : PyS) : ∀ s, occurs sep s = true → sep <:+: s := by
  intro s
  induction s with
  | nil =>
    intro h
    cases hs : sep with
    | nil => simp
    | cons c t =>
      subst hs
      simp [occurs] at h
  | cons c rest ih =>
    intro h
    rcases (show sep <+: c :: rest ∨ occurs sep rest = true by simpa [occurs] using h) with
      hp | ho
    · exact List.IsPrefix.isInfix hp
    · exact List.infix_cons (ih ho)

/-- The separator never occurs inside a decimal digit string when one of its
characters is not a digit. -/
lemma occurs_digits_false (sep : PyS) (n : Nat) (c : Char) (hc : c ∈ sep)
    (hcd : c.isDigit = false) : occurs sep (natDigits n) = false := by
  cases h : occurs sep (natDigits n) with
  | false => rfl
  | true =>
    exfalso
    have hmem : c ∈ natDigits n := (infix_of_occurs sep (natDigits n) h).subset hc
    have hd := natDigits_isDigit n c hmem
    rw [hcd] at hd
    exact Bool.false_ne_true hd

/-- Core of the provenance round trip: parsing the link
`href ++ q ++ "page=" ++ digits` recovers exactly the digits, provided
`page=` does not occur in `href` and `q` (the query separator the collector
inserted) is not a character of `page=`. -/
lemma parse_add_core (href : PyS) (n : Nat) (q : Char) (hq : q ∉ pageSep)
    (hocc : occurs pageSep href = false) :
    parse_page_number (href ++ q :: (pageSep ++ natDigits n)) = natDigits n := by
  have hsep : pageSep ≠ [] := by decide
  have hcont : occurs pageSep (href ++ q :: (pageSep ++ natDigits n)) = true := by
    have h := occurs_sep_append pageSep (natDigits n) hsep (href ++ [q])
    have heq : (href ++ [q]) ++ pageSep ++ natDigits n =
        href ++ q :: (pageSep ++ natDigits n) := by
      simp [List.append_assoc]
    rw [heq] at h
    exact h
  have hsplitA : splitAtFirst pageSep (href ++ q :: (pageSep ++ natDigits n)) =
      some (href ++ [q], natDigits n) :=
    splitAtFirst_boundary pageSep (natDigits n) q hsep hq href hocc
  have hpdig : occurs pageSep (natDigits n) = false :=
    occurs_digits_false pageSep n 'p' (by decide) (by decide)
  have hamp : occurs ['&'] (natDigits n) = false :=
    occurs_digits_false ['&'] n '&' (by decide) (by decide)
  have hsplit : pySplitSub pageSep (href ++ q :: (pageSep ++ natDigits n)) =
      [href ++ [q], natDigits n] := by
    unfold pySplitSub
    simp only [pySplitSubGo, hsplitA]
    rw [pySplitSubGo_of_none pageSep (natDigits n)
      (splitAtFirst_eq_none pageSep (natDigits n) hpdig)]
  have hsplit2 : pySplitSub ['&'] (natDigits n) = [natDigits n] := by
    unfold pySplitSub
    exact pySplitSubGo_of_none ['&'] (natDigits n)
      (splitAtFirst_eq_none ['&'] (natDigits n) hamp) _
  unfold parse_page_number pyContainsSub
  rw [hcont]
  simp only [if_true]
  rw [hsplit]
  simp only [List.getD_cons_succ, List.getD_cons_zero]
  rw [hsplit2]
  rfl

/-- C9 counterexample: for an href that already carries a `page=` query
parameter the round trip fails — the parse recovers the pre-existing value
`3`, not the appended listing page `7`. -/
theorem page_token_counterexample :
    parse_page_number (add_page_token "https://x.com/a?page=3".toList 7) = "3".toList ∧
    natDigits 7 = "7".toList ∧
    "3".toList ≠ "7".toList := by
  refine ⟨by decide, by decide, by decide⟩

/-- C9 amended: for every href that does not already contain the substring
`page=` and every listing page number n, the token appended by the link
collector (`?page=n` or `&page=n` according to the presence of a query
string) is recovered exactly as n's decimal digits by the batch worker's
parse; an href already containing `page=` instead yields the value at its
first occurrence. -/
theorem page_token_roundtrip (href : PyS) (n : Nat)
    (h : occurs pageSep href = false) :
    parse_page_number (add_page_token href n) = natDigits n := by
  unfold add_page_token
  cases hc : href.contains '?' with
  | true =>
    simp only [hc, if_true]
    exact parse_add_core href n '&' (by decide) h
  | false =>
    simp only [hc, Bool.false_eq_true, if_false]
    exact parse_add_core href n '?' (by decide) h

/-- Witness for `page_token_roundtrip`: a clean href and page 42. -/
theorem page_token_roundtrip_witness :
    occurs pageSep "https://txschools.gov/schools/101?lng=en".toList = false ∧
    parse_page_number (add_page_token "https://txschools.gov/schools/101?lng=en".toList 42) =
      natDigits 42 :=
  ⟨by decide, page_token_roundtrip "https://txschools.gov/schools/101?lng=en".toList 42
    (by decide)⟩
